import Mathlib

/-!
Shallow embedding of the `atomic_mpmc` crate (src/lib.rs, src/waiter.rs,
src/iterator.rs, src/errors.rs) and proofs about its specification.

Modelling conventions:
* Machine integers (`usize`) are `Nat`; cursor arithmetic wraps modulo
  `USIZE = 2 ^ 64` exactly where the source uses `fetch_add` /
  wrapping `+ 1` on `AtomicUsize`.
* Rust's `%` operator panics on a zero divisor; `rustRem` returns `none`
  in that case and the operations propagate it as a `panicked` outcome.
* The `Waiter` (spec: Gate) is a boolean predicate guarded by a mutex;
  under sequential (single-thread-at-a-time) semantics `wait` returns
  immediately when the predicate is true and never returns otherwise,
  so a blocking operation that reaches `wait` on a false predicate is
  modelled by a `blocked...` outcome carrying the state at the moment
  of parking.
* `MaybeUninit<UnsafeCell<T>>` is modelled as a plain value of type `V`
  with the `Inhabited` default standing for the uninitialized bits;
  `ptr::read` leaves the bits in place, which the model reflects by
  keeping the `data` field unchanged when only `hot` is flipped.
-/

namespace AtomicMpmc

/-- Width of `usize` on the 64-bit target: cursor arithmetic wraps modulo this. -/
def USIZE : Nat := 2 ^ 64

/-- Rust integer remainder: `a % b` panics (modelled as `none`) when `b = 0`. -/
def rustRem (a b : Nat) : Option Nat :=
  if b = 0 then none else some (a % b)

/-- Mirrors `errors.rs::ErrorCause`. -/
inductive ErrorCause
  | hungUp
  | wouldBlock
deriving DecidableEq, Repr

/-- Mirrors `errors.rs::SendError`: the rejected value together with the cause. -/
structure SendError (V : Type) where
  val : V
  cause : ErrorCause
deriving DecidableEq, Repr

/-- Mirrors `errors.rs::RecvError`: just the cause. -/
structure RecvError where
  cause : ErrorCause
deriving DecidableEq, Repr

/-- Mirrors `lib.rs::Node`: one storage cell plus the `hot` occupancy flag.
`data` holds the bits currently in the cell; `hot` says whether they are a
live value. -/
structure Node (V : Type) where
  data : V
  hot : Bool
deriving DecidableEq, Repr

/-- Mirrors `Node::default()`: uninitialized cell, `hot = false`. -/
def defaultNode (V : Type) [Inhabited V] : Node V :=
  { data := default, hot := false }

/-- Mirrors `lib.rs::Channel`, with the two `Waiter`s reduced to their boolean
predicates (`writable`, `readable`). -/
structure Channel (V : Type) where
  data : List (Node V)
  writeCur : Nat
  readCur : Nat
  receivers : Nat
  senders : Nat
  writable : Bool
  readable : Bool
deriving DecidableEq, Repr

variable {V : Type} [Inhabited V]

/-- The node currently stored at slot `i` (out-of-range reads never happen in
the verified paths; the default is only a total-function filler). -/
def Channel.nodeAt (c : Channel V) (i : Nat) : Node V :=
  c.data.getD i (defaultNode V)

/-- Occupancy flag of slot `i` (`Node::hot`). -/
def Channel.nodeHot (c : Channel V) (i : Nat) : Bool :=
  (c.nodeAt i).hot

/-- Cell contents of slot `i` (`Node::data`). -/
def Channel.nodeData (c : Channel V) (i : Nat) : V :=
  (c.nodeAt i).data

/-- Mirrors `Channel::new(capacity)`: `capacity` default nodes, cursors and
handle counters zero, `writable` initially true, `readable` initially false. -/
def Channel.new (V : Type) [Inhabited V] (capacity : Nat) : Channel V :=
  { data := List.replicate capacity (defaultNode V)
    writeCur := 0
    readCur := 0
    receivers := 0
    senders := 0
    writable := true
    readable := false }

/-- Mirrors `channel(capacity)`: builds the `Channel` and creates one `Sender`
and one `Receiver`, each of which increments its handle counter. There is no
validation of `capacity`. -/
def channel (V : Type) [Inhabited V] (capacity : Nat) : Channel V :=
  let c := Channel.new V capacity
  { c with senders := c.senders + 1, receivers := c.receivers + 1 }

/-- Mirrors `Channel::get_node(from)`: `fetch_add(1)` on the cursor and index
by the fetched value modulo the buffer length. Returns the slot index and the
post-increment cursor; `none` models the panic of `% 0`. -/
def Channel.get_node (c : Channel V) (cur : Nat) : Option (Nat × Nat) :=
  (rustRem cur c.data.length).map (fun idx => (idx, (cur + 1) % USIZE))

/-- Mirrors `Channel::try_node(from)`: load the cursor and index by it modulo
the buffer length, without advancing. Returns the slot index and the loaded
cursor value; `none` models the panic of `% 0`. -/
def Channel.try_node (c : Channel V) (cur : Nat) : Option (Nat × Nat) :=
  (rustRem cur c.data.length).map (fun idx => (idx, cur))

/-- Mirrors `Channel::check_senders`: true exactly when `senders == 0`,
in which case the receive operation fails with `HungUp`. -/
def Channel.check_senders_fails (c : Channel V) : Bool :=
  c.senders == 0

/-- Mirrors `Channel::check_receivers`: true exactly when `receivers == 0`,
in which case the send operation fails with `HungUp`, returning the value. -/
def Channel.check_receivers_fails (c : Channel V) : Bool :=
  c.receivers == 0

/-- Outcome of `Channel::write` / `Channel::try_write` under sequential
semantics. `blockedFirst` parks in the first `writable.wait()`;
`blockedSecond` has claimed slot `slot`, reset `writable` and parked in the
second `wait()`; `panicked` models remainder-by-zero. -/
inductive WriteResult (V : Type)
  | ok (c : Channel V)
  | err (e : SendError V) (c : Channel V)
  | blockedFirst (c : Channel V)
  | blockedSecond (slot : Nat) (c : Channel V)
  | panicked
deriving DecidableEq, Repr

/-- Outcome of `Channel::read` / `Channel::try_read` under sequential
semantics, analogous to `WriteResult`. -/
inductive ReadResult (V : Type)
  | ok (v : V) (c : Channel V)
  | err (e : RecvError) (c : Channel V)
  | blockedFirst (c : Channel V)
  | blockedSecond (slot : Nat) (c : Channel V)
  | panicked
deriving DecidableEq, Repr

/-- Mirrors lib.rs lines 176-183, the tail of `Channel::write` that runs both
on the fast path and when the thread resumes from the second `writable.wait()`:
`ptr::write` the value into the claimed slot, `set_hot(true)`, and
`readable.set()`. Note the source performs no re-inspection of the `hot` flag
here before depositing. -/
def Channel.writeFinish (c : Channel V) (slot : Nat) (v : V) : Channel V :=
  { c with data := c.data.set slot { data := v, hot := true }
           readable := true }

/-- Mirrors lib.rs lines 233-240, the tail of `Channel::read` that runs both
on the fast path and when the thread resumes from the second `readable.wait()`:
`ptr::read` the claimed slot, `set_hot(false)`, and `writable.set()`. Note the
source performs no re-inspection of the `hot` flag here before extracting. -/
def Channel.readFinish (c : Channel V) (slot : Nat) : V × Channel V :=
  (c.nodeData slot,
   { c with data := c.data.set slot { data := c.nodeData slot, hot := false }
            writable := true })

/-- Mirrors `Channel::write` (lib.rs lines 164-185): check receivers, wait on
`writable`, claim a slot by `get_node`, and if the slot is hot reset `writable`
and wait again (sequentially: park for good). -/
def Channel.write (c : Channel V) (v : V) : WriteResult V :=
  if c.check_receivers_fails then
    .err { val := v, cause := .hungUp } c
  else if !c.writable then
    .blockedFirst c
  else
    match c.get_node c.writeCur with
    | none => .panicked
    | some (idx, newCur) =>
      let c1 : Channel V := { c with writeCur := newCur }
      if c1.nodeHot idx then
        .blockedSecond idx { c1 with writable := false }
      else
        .ok (c1.writeFinish idx v)

/-- Mirrors `Channel::try_write` (lib.rs lines 187-219). The compare-exchange
of the cursor always succeeds under sequential semantics, so the retry loop
runs exactly once. -/
def Channel.try_write (c : Channel V) (v : V) : WriteResult V :=
  if c.check_receivers_fails then
    .err { val := v, cause := .hungUp } c
  else
    match c.try_node c.writeCur with
    | none => .panicked
    | some (idx, cur) =>
      if c.nodeHot idx then
        .err { val := v, cause := .wouldBlock } { c with writable := false }
      else
        let c1 : Channel V := { c with writeCur := (cur + 1) % USIZE }
        .ok (c1.writeFinish idx v)

/-- Mirrors `Channel::read` (lib.rs lines 221-241): wait on `readable`, claim
a slot by `get_node`, and if the slot is cold fail `HungUp` when `senders == 0`
(before any `reset`), else reset `readable` and wait again. -/
def Channel.read (c : Channel V) : ReadResult V :=
  if !c.readable then
    .blockedFirst c
  else
    match c.get_node c.readCur with
    | none => .panicked
    | some (idx, newCur) =>
      let c1 : Channel V := { c with readCur := newCur }
      if !c1.nodeHot idx then
        if c1.check_senders_fails then
          .err { cause := .hungUp } c1
        else
          .blockedSecond idx { c1 with readable := false }
      else
        let r := c1.readFinish idx
        .ok r.1 r.2

/-- Mirrors `Channel::try_read` (lib.rs lines 243-272). The compare-exchange
of the cursor always succeeds under sequential semantics, so the retry loop
runs exactly once. -/
def Channel.try_read (c : Channel V) : ReadResult V :=
  match c.try_node c.readCur with
  | none => .panicked
  | some (idx, cur) =>
    if !c.nodeHot idx then
      if c.check_senders_fails then
        .err { cause := .hungUp } c
      else
        .err { cause := .wouldBlock } { c with readable := false }
    else
      let c1 : Channel V := { c with readCur := (cur + 1) % USIZE }
      let r := c1.readFinish idx
      .ok r.1 r.2

/-- Mirrors `impl Drop for Sender` (lib.rs lines 323-327): the whole body is
`senders.fetch_sub(1)`. No Gate is touched. -/
def senderDrop (c : Channel V) : Channel V :=
  { c with senders := c.senders - 1 }

/-- Mirrors `impl Drop for Receiver` (lib.rs lines 439-443): the whole body is
`receivers.fetch_sub(1)`. No Gate is touched. -/
def receiverDrop (c : Channel V) : Channel V :=
  { c with receivers := c.receivers - 1 }

/-- One operation of a sequential single-producer single-consumer program:
a blocking `send` of a value or a blocking `recv`. -/
inductive Op (V : Type)
  | send (v : V)
  | recv
deriving DecidableEq, Repr

/-- State of a sequential run: the channel, the values successfully sent (in
order), the values received (in order), and whether the run has halted because
an operation blocked, errored or panicked. -/
structure RunState (V : Type) where
  chan : Channel V
  sent : List V
  rcvd : List V
  halted : Bool
deriving DecidableEq, Repr

/-- Executes one operation of a sequential program. Once the run has halted
(the single thread is parked, or an operation failed), later operations do not
execute. -/
def runStep (s : RunState V) (op : Op V) : RunState V :=
  if s.halted then s
  else
    match op with
    | .send v =>
      match s.chan.write v with
      | .ok c => { s with chan := c, sent := s.sent ++ [v] }
      | .err _ c => { s with chan := c, halted := true }
      | .blockedFirst c => { s with chan := c, halted := true }
      | .blockedSecond _ c => { s with chan := c, halted := true }
      | .panicked => { s with halted := true }
    | .recv =>
      match s.chan.read with
      | .ok v c => { s with chan := c, rcvd := s.rcvd ++ [v] }
      | .err _ c => { s with chan := c, halted := true }
      | .blockedFirst c => { s with chan := c, halted := true }
      | .blockedSecond _ c => { s with chan := c, halted := true }
      | .panicked => { s with halted := true }

/-- Runs a sequential single-producer single-consumer program against a fresh
channel of the given capacity. -/
def run (V : Type) [Inhabited V] (capacity : Nat) (ops : List (Op V)) :
    RunState V :=
  ops.foldl runStep { chan := channel V capacity, sent := [], rcvd := [], halted := false }

/-- Mirrors `impl Drop for Node` (lib.rs lines 74-84): at destruction the value
is dropped in place exactly when `hot` is true; a cold slot is not touched.
Returns the value destroyed, if any. -/
def Node.dropEffect (n : Node V) : Option V :=
  if n.hot then some n.data else none

/-- Number of values destroyed when the Ring (the `Vec<Node<T>>`) is dropped:
one per hot slot. -/
def Channel.destructionCount (c : Channel V) : Nat :=
  (c.data.filter (fun n => n.hot)).length

/-- The values destroyed at Ring destruction, in slot order. -/
def Channel.destroyedValues (c : Channel V) : List V :=
  (c.data.filter (fun n => n.hot)).map (fun n => n.data)

/-- Outcome of one `next` call on an iterator view: `step` yields an optional
value together with the new liveness flag of the iterator (`Option<R>` being
`Some`) and the channel; `blocked` means the underlying blocking `recv`
parked; `panicked` propagates a panic. -/
inductive IterNextResult (V : Type)
  | step (out : Option V) (live : Bool) (c : Channel V)
  | blocked (c : Channel V)
  | panicked
deriving DecidableEq, Repr

/-- Mirrors `impl Iterator for Iter` (iterator.rs lines 50-63): while the
stored receiver is present (`live`), call blocking `recv`; on any error set
the receiver to `None` (`live := false`) and yield end-of-stream; once the
receiver is `None`, always yield end-of-stream without touching the channel. -/
def iterNext (live : Bool) (c : Channel V) : IterNextResult V :=
  if live then
    match c.read with
    | .ok v c1 => .step (some v) true c1
    | .err _ c1 => .step none false c1
    | .blockedFirst c1 => .blocked c1
    | .blockedSecond _ c1 => .blocked c1
    | .panicked => .panicked
  else
    .step none false c

/-- Mirrors `impl Iterator for TryIter` (iterator.rs lines 78-90): while the
stored receiver is present, call `try_recv`; on any error set the receiver to
`None` and yield end-of-stream; once the receiver is `None`, always yield
end-of-stream without touching the channel. -/
def tryIterNext (live : Bool) (c : Channel V) : IterNextResult V :=
  if live then
    match c.try_read with
    | .ok v c1 => .step (some v) true c1
    | .err _ c1 => .step none false c1
    | .blockedFirst c1 => .blocked c1
    | .blockedSecond _ c1 => .blocked c1
    | .panicked => .panicked
  else
    .step none false c

/-- FIFO property of a sequential run: the received values are exactly the
first `rcvd.length` successfully sent values, in order. -/
def FifoOk (s : RunState V) : Prop :=
  s.rcvd = s.sent.take s.rcvd.length

/-- Channel-level invariant of a live (non-halted) sequential
single-producer single-consumer run on a channel of capacity `N`. -/
structure ChanInv (N : Nat) (s : RunState V) : Prop where
  len : s.chan.data.length = N
  wcur : s.chan.writeCur = s.sent.length
  rcur : s.chan.readCur = s.rcvd.length
  lo : s.rcvd.length ≤ s.sent.length
  hi : s.sent.length ≤ s.rcvd.length + N
  recvLive : s.chan.receivers = 1
  sendLive : s.chan.senders = 1
  gateW : s.chan.writable = true
  hotWin : ∀ j, s.rcvd.length ≤ j → j < s.sent.length →
    s.chan.data[j % N]? = some { data := s.sent.getD j default, hot := true }
  coldOut : ∀ i, i < N →
    (∀ j, s.rcvd.length ≤ j → j < s.sent.length → j % N ≠ i) →
    ∃ x, s.chan.data[i]? = some { data := x, hot := false }
  cnt : (s.chan.data.filter (fun n => n.hot)).length
    = s.sent.length - s.rcvd.length

/-- Invariant of a sequential run: the FIFO property always holds, and the
channel-level invariant holds as long as the run has not halted. -/
def Inv (N : Nat) (s : RunState V) : Prop :=
  FifoOk s ∧ (s.halted = true ∨ ChanInv N s)

/-- A channel state in which a producer parked in the second `writable.wait`
of `Channel::write` has resumed while its claimed slot (slot 0) is occupied
again. Reachable with capacity 1 and two producers A, B and one consumer:
the channel holds one value, A calls `send` (claims slot 0, sees it hot,
resets `writable`, parks); the consumer `recv`s (slot 0 cold, `writable`
set); B calls `send` (claims slot 0 again, deposits 7, slot hot, `readable`
set); A resumes from `wait` with `writable` still true. -/
def resumeFullSlot : Channel Nat :=
  { data := [{ data := 7, hot := true }]
    writeCur := 3
    readCur := 1
    receivers := 1
    senders := 2
    writable := true
    readable := true }

/-- A channel state in which a consumer parked in the second `readable.wait`
of `Channel::read` has resumed while its claimed slot (slot 0) is still
unoccupied; the cell holds the stale bits 7 of an already-consumed value.
Reachable with capacity 1, one producer and two consumers, symmetrically to
`resumeFullSlot`. -/
def resumeEmptySlot : Channel Nat :=
  { data := [{ data := 7, hot := false }]
    writeCur := 2
    readCur := 3
    receivers := 2
    senders := 1
    writable := true
    readable := true }

/-- A freshly constructed capacity-1 channel pair: `readable` is false and
no value was ever sent. -/
def freshChan : Channel Nat := channel Nat 1

/-- A capacity-1 channel holding one value whose `writable` Gate predicate is
false: reached from `freshChan` by `try_send(1)` (succeeds) followed by
`try_send(2)` (fails with would-block and resets `writable`). -/
def fullChan : Channel Nat :=
  { data := [{ data := 1, hot := true }]
    writeCur := 1
    readCur := 0
    receivers := 1
    senders := 1
    writable := false
    readable := true }

/-- The state after dropping the only `Sender` of a fresh capacity-1 channel:
`senders = 0`, the slot at the read cursor is unoccupied, and `readable` is
still false. -/
def hungChan : Channel Nat := senderDrop freshChan

/-- Intermediate states of the capacity-1 non-blocking scenario. -/
def c6s1 : Channel Nat :=
  { data := [{ data := 1, hot := true }]
    writeCur := 1
    readCur := 0
    receivers := 1
    senders := 1
    writable := true
    readable := true }

/-- State after the failed `try_send(2)`: `writable` reset to false. -/
def c6s2 : Channel Nat := { c6s1 with writable := false }

/-- State after `try_recv()` returned 1: slot cold, `writable` set again. -/
def c6s3 : Channel Nat :=
  { data := [{ data := 1, hot := false }]
    writeCur := 1
    readCur := 1
    receivers := 1
    senders := 1
    writable := true
    readable := true }

/-- State after the failed second `try_recv()`: `readable` reset to false. -/
def c6s4 : Channel Nat := { c6s3 with readable := false }

/-- The program of the drop-accounting scenario: capacity 10, send the ten
values 1..10, receive three. -/
def c7ops : List (Op Nat) :=
  [.send 1, .send 2, .send 3, .send 4, .send 5, .send 6, .send 7, .send 8,
   .send 9, .send 10, .recv, .recv, .recv]

/-- Two cursor values whose distance is positive but smaller than the
capacity index different slots. -/
theorem mod_ne_of_window {N a b : Nat} (hab : a < b) (hbN : b - a < N) :
    a % N ≠ b % N := by
  intro h
  have hdvd : N ∣ b - a := (Nat.modEq_iff_dvd' (Nat.le_of_lt hab)).mp h
  have hle := Nat.le_of_dvd (by omega) hdvd
  omega

/-- Counting lemma: replacing one element of a list changes the number of
elements satisfying `p` by the difference of the two indicator values. -/
theorem length_filter_set {α : Type} (p : α → Bool) :
    ∀ (L : List α) (i : Nat) (m n : α), L[i]? = some m →
      ((L.set i n).filter p).length + (if p m then 1 else 0)
        = (L.filter p).length + (if p n then 1 else 0) := by
  intro L
  induction L with
  | nil => intro i m n h; simp at h
  | cons a L ih =>
    intro i m n h
    cases i with
    | zero =>
      rw [List.getElem?_cons_zero] at h
      injection h with h
      subst h
      simp only [List.set]
      rw [List.filter_cons, List.filter_cons]
      cases hpa : p a <;> cases hpn : p n <;> simp [hpa, hpn] <;> omega
    | succ i =>
      rw [List.getElem?_cons_succ] at h
      have hrec := ih i m n h
      simp only [List.set]
      rw [List.filter_cons, List.filter_cons]
      cases hpa : p a <;> simp [hpa] <;> omega

/-- Replacing an element satisfying `p` by one that does not decreases the
filter count by one. -/
theorem length_filter_set_flip_down {α : Type} (p : α → Bool) (L : List α)
    (i : Nat) (m n : α) (h : L[i]? = some m) (hm : p m = true)
    (hn : p n = false) :
    ((L.set i n).filter p).length + 1 = (L.filter p).length := by
  have hcnt := length_filter_set p L i m n h
  rw [hm, hn] at hcnt
  simpa using hcnt

/-- Replacing an element not satisfying `p` by one that does increases the
filter count by one. -/
theorem length_filter_set_flip_up {α : Type} (p : α → Bool) (L : List α)
    (i : Nat) (m n : α) (h : L[i]? = some m) (hm : p m = false)
    (hn : p n = true) :
    ((L.set i n).filter p).length = (L.filter p).length + 1 := by
  have hcnt := length_filter_set p L i m n h
  rw [hm, hn] at hcnt
  simpa using hcnt

/-- The occupancy flag read by the operations, expressed through the list
lookup. -/
theorem nodeHot_of_lookup {c : Channel V} {i : Nat} {n : Node V}
    (h : c.data[i]? = some n) : c.nodeHot i = n.hot := by
  simp [Channel.nodeHot, Channel.nodeAt, List.getD_eq_getElem?_getD, h]

/-- The cell contents read by the operations, expressed through the list
lookup. -/
theorem nodeData_of_lookup {c : Channel V} {i : Nat} {n : Node V}
    (h : c.data[i]? = some n) : c.nodeData i = n.data := by
  simp [Channel.nodeData, Channel.nodeAt, List.getD_eq_getElem?_getD, h]

/-- Unfolding of the occupancy check on an explicit channel literal. -/
theorem nodeHot_mk (d : List (Node V)) (wc rc rcv snd : Nat) (wa ra : Bool)
    (i : Nat) :
    (Channel.mk d wc rc rcv snd wa ra).nodeHot i
      = ((d[i]?).getD (defaultNode V)).hot := by
  simp [Channel.nodeHot, Channel.nodeAt, List.getD_eq_getElem?_getD]

/-- Unfolding of the cell read on an explicit channel literal. -/
theorem nodeData_mk (d : List (Node V)) (wc rc rcv snd : Nat) (wa ra : Bool)
    (i : Nat) :
    (Channel.mk d wc rc rcv snd wa ra).nodeData i
      = ((d[i]?).getD (defaultNode V)).data := by
  simp [Channel.nodeData, Channel.nodeAt, List.getD_eq_getElem?_getD]

/-- One step of a sequential single-producer single-consumer program
preserves the run invariant, and grows each of the sent and received lists by
at most one element. -/
theorem runStep_preserves {N : Nat} (hN : 1 ≤ N) (s : RunState V) (op : Op V)
    (hInv : Inv N s)
    (hw : s.sent.length + 1 < USIZE) (hr : s.rcvd.length + 1 < USIZE) :
    Inv N (runStep s op)
      ∧ (runStep s op).sent.length + (runStep s op).rcvd.length
          ≤ s.sent.length + s.rcvd.length + 1 := by
  obtain ⟨hfifo, hrest⟩ := hInv
  cases hhalt : s.halted with
  | true =>
    simp only [runStep, hhalt, if_true]
    exact ⟨⟨hfifo, Or.inl hhalt⟩, by omega⟩
  | false =>
    have hchan : ChanInv N s := by
      rcases hrest with h | h
      · rw [hhalt] at h; simp at h
      · exact h
    have hlen : s.chan.data.length = N := hchan.len
    have hNpos : 0 < N := hN
    have hlenne : s.chan.data.length ≠ 0 := by omega
    have hrecv := hchan.recvLive
    have hsend := hchan.sendLive
    have hgw := hchan.gateW
    have hwcur := hchan.wcur
    have hrcur := hchan.rcur
    have hloInv := hchan.lo
    have hhiInv := hchan.hi
    cases op with
    | send v =>
      rcases Nat.lt_or_ge s.sent.length (s.rcvd.length + N) with hroom | hfull
      · -- the claimed slot is cold: the send succeeds
        obtain ⟨x, hx⟩ := hchan.coldOut (s.sent.length % N)
          (Nat.mod_lt _ hNpos)
          (fun j hj1 hj2 => mod_ne_of_window hj2 (by omega))
        have hcold : s.chan.nodeHot (s.sent.length % N) = false := by
          rw [nodeHot_of_lookup hx]
        have hidxlt : s.sent.length % N < s.chan.data.length := by
          rw [hlen]; exact Nat.mod_lt _ hNpos
        have hstep : runStep s (.send v) =
            { chan :=
                { s.chan with
                    writeCur := s.sent.length + 1
                    data := s.chan.data.set (s.sent.length % N)
                      { data := v, hot := true }
                    readable := true }
              sent := s.sent ++ [v]
              rcvd := s.rcvd
              halted := false } := by
          have hN0 : ¬ N = 0 := by omega
          simp [runStep, hhalt, Channel.write, Channel.check_receivers_fails,
            hrecv, hgw, Channel.get_node, rustRem, hlen, hN0, hwcur,
            nodeHot_mk, hx, Channel.writeFinish, Nat.mod_eq_of_lt hw]
        rw [hstep]
        refine ⟨⟨?_, Or.inr ?_⟩, ?_⟩
        · show s.rcvd = (s.sent ++ [v]).take s.rcvd.length
          rw [List.take_append_of_le_length hchan.lo]
          exact hfifo
        · constructor
          case len => simp [List.length_set, hlen]
          case wcur => simp
          case rcur => exact hrcur
          case lo =>
            have := hchan.lo
            simp only [List.length_append, List.length_cons, List.length_nil]
            omega
          case hi =>
            simp only [List.length_append, List.length_cons, List.length_nil]
            omega
          case recvLive => exact hrecv
          case sendLive => exact hsend
          case gateW => exact hgw
          case hotWin =>
            intro j hj1 hj2
            dsimp only at hj1 hj2 ⊢
            simp only [List.length_append, List.length_cons,
              List.length_nil] at hj2
            by_cases hjw : j = s.sent.length
            · subst hjw
              have hget : (s.sent ++ [v]).getD s.sent.length default = v := by
                rw [List.getD_eq_getElem?_getD, List.getElem?_concat_length]
                rfl
              rw [hget, List.getElem?_set_self (by simpa [hlen] using hidxlt)]
            · have hjlt : j < s.sent.length := by omega
              have hne : j % N ≠ s.sent.length % N :=
                mod_ne_of_window hjlt (by omega)
              rw [List.getElem?_set_ne (Ne.symm hne)]
              have hget : (s.sent ++ [v]).getD j default = s.sent.getD j default := by
                rw [List.getD_eq_getElem?_getD, List.getD_eq_getElem?_getD,
                  List.getElem?_append]
                simp [hjlt]
              rw [hget]
              exact hchan.hotWin j hj1 hjlt
          case coldOut =>
            intro i hiN hmiss
            dsimp only at hmiss ⊢
            simp only [List.length_append, List.length_cons,
              List.length_nil] at hmiss
            have hlo := hchan.lo
            have hne : s.sent.length % N ≠ i :=
              hmiss s.sent.length (by omega) (by omega)
            rw [List.getElem?_set_ne hne]
            exact hchan.coldOut i hiN (fun j hj1 hj2 => hmiss j hj1 (by omega))
          case cnt =>
            dsimp only
            have hcnt := length_filter_set_flip_up (fun n => n.hot)
              s.chan.data (s.sent.length % N) { data := x, hot := false }
              { data := v, hot := true } hx rfl rfl
            have hold := hchan.cnt
            simp only [List.length_append, List.length_cons, List.length_nil]
            omega
        · dsimp only
          simp only [List.length_append, List.length_cons, List.length_nil]
          omega
      · -- the channel is full: the claimed slot is hot and the send parks
        have hrw : s.rcvd.length < s.sent.length := by omega
        have hx := hchan.hotWin s.rcvd.length (Nat.le_refl _) hrw
        have hfe : s.sent.length = s.rcvd.length + N := by omega
        have hidx : s.sent.length % N = s.rcvd.length % N := by
          rw [hfe, Nat.add_mod_right]
        have hstep : runStep s (.send v) =
            { s with
                chan :=
                  { s.chan with
                      writeCur := s.sent.length + 1
                      writable := false }
                halted := true } := by
          have hN0 : ¬ N = 0 := by omega
          simp [runStep, hhalt, Channel.write, Channel.check_receivers_fails,
            hrecv, hgw, Channel.get_node, rustRem, hlen, hN0, hwcur,
            nodeHot_mk, hidx, hx, Nat.mod_eq_of_lt hw]
        rw [hstep]
        exact ⟨⟨hfifo, Or.inl rfl⟩, by dsimp only; omega⟩
    | recv =>
      cases hread : s.chan.readable with
      | false =>
        have hstep : runStep s .recv = { s with halted := true } := by
          simp [runStep, hhalt, Channel.read, hread]
        rw [hstep]
        exact ⟨⟨hfifo, Or.inl rfl⟩, by dsimp only; omega⟩
      | true =>
        rcases Nat.lt_or_ge s.rcvd.length s.sent.length with hne | hempty
        · -- a value is pending at the read cursor: the recv succeeds
          have hx := hchan.hotWin s.rcvd.length (Nat.le_refl _) hne
          have hhot : s.chan.nodeHot (s.rcvd.length % N) = true := by
            rw [nodeHot_of_lookup hx]
          have hdata : s.chan.nodeData (s.rcvd.length % N)
              = s.sent.getD s.rcvd.length default := by
            rw [nodeData_of_lookup hx]
          have hidxlt : s.rcvd.length % N < s.chan.data.length := by
            rw [hlen]; exact Nat.mod_lt _ hNpos
          have hstep : runStep s .recv =
              { chan :=
                  { s.chan with
                      readCur := s.rcvd.length + 1
                      data := s.chan.data.set (s.rcvd.length % N)
                        { data := s.sent.getD s.rcvd.length default
                          hot := false }
                      writable := true }
                sent := s.sent
                rcvd := s.rcvd ++ [s.sent.getD s.rcvd.length default]
                halted := false } := by
            have hN0 : ¬ N = 0 := by omega
            simp [runStep, hhalt, Channel.read, hread, Channel.get_node,
              rustRem, hlen, hN0, hrcur, nodeHot_mk, nodeData_mk, hx,
              Channel.readFinish, Nat.mod_eq_of_lt hr]
          rw [hstep]
          have hsentr : s.sent[s.rcvd.length]?
              = some (s.sent.getD s.rcvd.length default) := by
            rw [List.getD_eq_getElem?_getD, List.getElem?_eq_getElem hne]
            rfl
          refine ⟨⟨?_, Or.inr ?_⟩, ?_⟩
          · show s.rcvd ++ [s.sent.getD s.rcvd.length default]
              = s.sent.take (s.rcvd ++ [s.sent.getD s.rcvd.length default]).length
            simp only [List.length_append, List.length_cons, List.length_nil]
            rw [List.take_succ, hsentr]
            rw [← hfifo]
            rfl
          · constructor
            case len => simp [List.length_set, hlen]
            case wcur =>
              dsimp only
              exact hwcur
            case rcur =>
              dsimp only
              simp
            case lo =>
              dsimp only
              simp only [List.length_append, List.length_cons, List.length_nil]
              omega
            case hi =>
              dsimp only
              simp only [List.length_append, List.length_cons, List.length_nil]
              omega
            case recvLive => exact hrecv
            case sendLive => exact hsend
            case gateW => rfl
            case hotWin =>
              intro j hj1 hj2
              dsimp only at hj1 hj2 ⊢
              simp only [List.length_append, List.length_cons,
                List.length_nil] at hj1
              have hjgt : s.rcvd.length < j := by omega
              have hne2 : s.rcvd.length % N ≠ j % N :=
                mod_ne_of_window hjgt (by omega)
              rw [List.getElem?_set_ne hne2]
              exact hchan.hotWin j (by omega) hj2
            case coldOut =>
              intro i hiN hmiss
              dsimp only at hmiss ⊢
              simp only [List.length_append, List.length_cons,
                List.length_nil] at hmiss
              by_cases hieq : i = s.rcvd.length % N
              · subst hieq
                exact ⟨_, List.getElem?_set_self (by simpa [hlen] using hidxlt)⟩
              · rw [List.getElem?_set_ne (fun h => hieq h.symm)]
                refine hchan.coldOut i hiN (fun j hj1 hj2 => ?_)
                by_cases hjr : j = s.rcvd.length
                · subst hjr; exact fun h => hieq (h.symm)
                · exact hmiss j (by omega) hj2
            case cnt =>
              have hcnt := length_filter_set_flip_down (fun n => n.hot)
                s.chan.data (s.rcvd.length % N)
                { data := s.sent.getD s.rcvd.length default, hot := true }
                { data := s.sent.getD s.rcvd.length default, hot := false }
                hx rfl rfl
              have hold := hchan.cnt
              dsimp only
              simp only [List.length_append, List.length_cons, List.length_nil]
              omega
          · dsimp only
            simp only [List.length_append, List.length_cons, List.length_nil]
            omega
        · -- the channel is empty: the slot is cold and the recv parks
          obtain ⟨x, hx⟩ := hchan.coldOut (s.rcvd.length % N)
            (Nat.mod_lt _ hNpos)
            (fun j hj1 hj2 => by omega)
          have hcold : s.chan.nodeHot (s.rcvd.length % N) = false := by
            rw [nodeHot_of_lookup hx]
          have hstep : runStep s .recv =
              { s with
                  chan :=
                    { s.chan with
                        readCur := s.rcvd.length + 1
                        readable := false }
                  halted := true } := by
            have hN0 : ¬ N = 0 := by omega
            simp [runStep, hhalt, Channel.read, hread, Channel.get_node,
              rustRem, hlen, hN0, hrcur, nodeHot_mk, hx,
              Channel.check_senders_fails, hsend, Nat.mod_eq_of_lt hr]
          rw [hstep]
          exact ⟨⟨hfifo, Or.inl rfl⟩, by dsimp only; omega⟩

/-- The run invariant holds for the initial state of a sequential run. -/
theorem inv_init {N : Nat} (hN : 1 ≤ N) :
    Inv (V := V) N
      { chan := channel V N, sent := [], rcvd := [], halted := false } := by
  refine ⟨rfl, Or.inr ?_⟩
  constructor
  case len => simp [channel, Channel.new]
  case wcur => rfl
  case rcur => rfl
  case lo => simp
  case hi => simp
  case recvLive => rfl
  case sendLive => rfl
  case gateW => rfl
  case hotWin =>
    intro j hj1 hj2
    simp at hj2
  case coldOut =>
    intro i hiN hmiss
    refine ⟨default, ?_⟩
    simp [channel, Channel.new, List.getElem?_replicate, hiN, defaultNode]
  case cnt =>
    simp [channel, Channel.new, List.filter_replicate, defaultNode]

/-- Folding a sequential program over an invariant-satisfying state preserves
the invariant, provided the program is short enough that the cursors never
wrap. -/
theorem run_inv_fold {N : Nat} (hN : 1 ≤ N) :
    ∀ (ops : List (Op V)) (s : RunState V), Inv N s →
      s.sent.length + s.rcvd.length + ops.length < USIZE →
      Inv N (ops.foldl runStep s) := by
  intro ops
  induction ops with
  | nil =>
    intro s h _
    simpa using h
  | cons op ops ih =>
    intro s h hbound
    simp only [List.length_cons] at hbound
    obtain ⟨h1, h2⟩ := runStep_preserves hN s op h (by omega) (by omega)
    simp only [List.foldl_cons]
    exact ih (runStep s op) h1 (by omega)

/-- The run invariant holds at the end of every sequential single-producer
single-consumer program whose length excludes cursor wrap. -/
theorem run_inv {N : Nat} (hN : 1 ≤ N) (ops : List (Op V))
    (hlen : ops.length < USIZE) : Inv N (run V N ops) := by
  have h := run_inv_fold (V := V) hN ops
    { chan := channel V N, sent := [], rcvd := [], halted := false }
    (inv_init hN) (by simpa using hlen)
  simpa [run] using h

/-- C1: for every channel of capacity N ≥ 1 used sequentially by one producer
and one consumer, the values received are exactly the first successfully sent
values, in the order they were sent; in particular, with capacity 3, sending
[1,2,3], [4,5,6], [7,8,9] and receiving three times yields [1,2,3], [4,5,6],
[7,8,9] in that order. -/
theorem spec_c1_sequential_fifo :
    (∀ (V : Type) [Inhabited V] (N : Nat) (ops : List (Op V)),
        1 ≤ N → ops.length < USIZE →
        (run V N ops).rcvd = (run V N ops).sent.take (run V N ops).rcvd.length)
    ∧ (run (List Nat) 3
          [.send [1, 2, 3], .send [4, 5, 6], .send [7, 8, 9],
           .recv, .recv, .recv]).rcvd
        = [[1, 2, 3], [4, 5, 6], [7, 8, 9]]
    ∧ (run (List Nat) 3
          [.send [1, 2, 3], .send [4, 5, 6], .send [7, 8, 9],
           .recv, .recv, .recv]).sent
        = [[1, 2, 3], [4, 5, 6], [7, 8, 9]] := by
  refine ⟨?_, by decide, by decide⟩
  intro V instV N ops hN hlen
  exact (run_inv hN ops hlen).1

/-- Witness for C1: the general FIFO statement applied to a concrete
capacity-2 program. -/
theorem spec_c1_sequential_fifo_witness :
    (run Nat 2 [.send 5, .send 6, .recv]).rcvd
      = (run Nat 2 [.send 5, .send 6, .recv]).sent.take
          (run Nat 2 [.send 5, .send 6, .recv]).rcvd.length :=
  spec_c1_sequential_fifo.1 Nat 2 [.send 5, .send 6, .recv]
    (by decide) (by decide)

/-- C2: contrary to the claim, the code inspects nothing after resuming from
the second Gate wait: the continuation `writeFinish` (lib.rs 176-183) deposits
into the claimed slot even though its occupied flag is still true, and the
continuation `readFinish` (lib.rs 233-240) extracts from the claimed slot even
though its occupied flag is false. -/
theorem spec_c2_resume_skips_inspection :
    resumeFullSlot.nodeHot 0 = true
      ∧ (resumeFullSlot.writeFinish 0 5).nodeData 0 = 5
      ∧ (resumeFullSlot.writeFinish 0 5).nodeHot 0 = true
      ∧ resumeEmptySlot.nodeHot 0 = false
      ∧ (resumeEmptySlot.readFinish 0).1 = 7 := by
  decide

/-- C3: contrary to the claim, dropping the last handle of one side only
decrements the handle counter and signals no Gate: after dropping the last
`Sender` of a fresh channel the `readable` predicate is still false, and after
dropping the last `Receiver` of a channel whose `writable` predicate is false
it is still false. -/
theorem spec_c3_drop_signals_no_gate :
    ((senderDrop freshChan).senders = 0
      ∧ (senderDrop freshChan).readable = false
      ∧ (senderDrop freshChan).writable = freshChan.writable)
    ∧ ((receiverDrop fullChan).receivers = 0
      ∧ (receiverDrop fullChan).writable = false
      ∧ (receiverDrop fullChan).readable = fullChan.readable) := by
  decide

/-- Counterexample for C4: on a fresh capacity-1 channel whose only sender was
dropped, the sender counter is zero and the slot at the read cursor is
unoccupied, yet blocking `recv` does not fail with a hung-up error: it parks
forever in the first `readable.wait`. -/
theorem spec_c4_recv_blocks_counterexample :
    hungChan.senders = 0
      ∧ hungChan.nodeHot (hungChan.readCur % hungChan.data.length) = false
      ∧ hungChan.read = .blockedFirst hungChan := by
  decide

/-- C4 (amended): `try_recv` fails with a hung-up error exactly when the
sender counter is zero and the slot at the read cursor is unoccupied; blocking
`recv` satisfies the same equivalence provided the `readable` Gate predicate
is true when it is called; and whenever the slot at the read cursor is
occupied, `try_recv` returns that slot value successfully, regardless of the
sender counter. -/
theorem spec_c4_hungup_condition (c : Channel V) (hN : 1 ≤ c.data.length) :
    (c.try_read = .err { cause := .hungUp } c
        ↔ c.senders = 0 ∧ c.nodeHot (c.readCur % c.data.length) = false)
    ∧ (c.readable = true →
        (c.read = .err { cause := .hungUp }
            { c with readCur := (c.readCur + 1) % USIZE }
          ↔ c.senders = 0 ∧ c.nodeHot (c.readCur % c.data.length) = false))
    ∧ (c.nodeHot (c.readCur % c.data.length) = true →
        c.try_read = .ok (c.nodeData (c.readCur % c.data.length))
          { c with
              data := c.data.set (c.readCur % c.data.length)
                { data := c.nodeData (c.readCur % c.data.length), hot := false }
              readCur := (c.readCur + 1) % USIZE
              writable := true }) := by
  have hN0 : ¬ c.data.length = 0 := by omega
  refine ⟨?_, ?_, ?_⟩
  · cases hhot : c.nodeHot (c.readCur % c.data.length) with
    | true =>
      simp [Channel.try_read, Channel.try_node, rustRem, hN0, hhot]
    | false =>
      cases hs : c.senders with
      | zero =>
        simp [Channel.try_read, Channel.try_node, rustRem, hN0, hhot,
          Channel.check_senders_fails, hs]
      | succ k =>
        simp [Channel.try_read, Channel.try_node, rustRem, hN0, hhot,
          Channel.check_senders_fails, hs]
  · intro hready
    cases hhot : c.nodeHot (c.readCur % c.data.length) with
    | true =>
      simp only [Channel.nodeHot, Channel.nodeAt,
        List.getD_eq_getElem?_getD] at hhot
      simp [Channel.read, hready, Channel.get_node, rustRem, hN0,
        nodeHot_mk, nodeData_mk, hhot, Channel.readFinish]
    | false =>
      simp only [Channel.nodeHot, Channel.nodeAt,
        List.getD_eq_getElem?_getD] at hhot
      cases hs : c.senders with
      | zero =>
        simp [Channel.read, hready, Channel.get_node, rustRem, hN0,
          nodeHot_mk, hhot, Channel.check_senders_fails, hs]
      | succ k =>
        simp [Channel.read, hready, Channel.get_node, rustRem, hN0,
          nodeHot_mk, hhot, Channel.check_senders_fails, hs]
  · intro hhot
    simp only [Channel.nodeHot, Channel.nodeAt,
      List.getD_eq_getElem?_getD] at hhot
    simp [Channel.try_read, Channel.try_node, rustRem, hN0,
      nodeHot_mk, nodeData_mk, hhot, Channel.readFinish, Channel.nodeHot,
      Channel.nodeData, Channel.nodeAt, List.getD_eq_getElem?_getD]

/-- Witness for C4 (amended): the equivalence applied to the concrete hung-up
channel, where both sides of the `try_recv` equivalence hold. -/
theorem spec_c4_hungup_condition_witness :
    hungChan.try_read = .err { cause := .hungUp } hungChan :=
  (spec_c4_hungup_condition hungChan (by decide)).1.mpr (by decide)

/-- C5: when the receiver counter is zero, both `send` and `try_send` fail
immediately with a hung-up send error carrying the rejected value back to the
caller, and the channel state (gates, cursors, slots) is returned untouched. -/
theorem spec_c5_send_hungup_returns_value (c : Channel V) (v : V)
    (h : c.receivers = 0) :
    c.write v = .err { val := v, cause := .hungUp } c
      ∧ c.try_write v = .err { val := v, cause := .hungUp } c := by
  constructor <;>
    simp [Channel.write, Channel.try_write, Channel.check_receivers_fails, h]

/-- Witness for C5: the hung-up send applied to a concrete channel without
receivers. -/
theorem spec_c5_send_hungup_returns_value_witness :
    (receiverDrop freshChan).write 9
        = .err { val := 9, cause := .hungUp } (receiverDrop freshChan)
      ∧ (receiverDrop freshChan).try_write 9
        = .err { val := 9, cause := .hungUp } (receiverDrop freshChan) :=
  spec_c5_send_hungup_returns_value (receiverDrop freshChan) 9 (by decide)

/-- C6: with capacity 1 and both handles live, `try_send(1)` succeeds, a
second `try_send(2)` fails with a would-block error carrying 2 and resets the
`writable` Gate predicate to false, `try_recv()` then returns 1, and a second
`try_recv()` fails with a would-block error. -/
theorem spec_c6_capacity_one_nonblocking :
    freshChan.try_write 1 = .ok c6s1
      ∧ c6s1.try_write 2 = .err { val := 2, cause := .wouldBlock } c6s2
      ∧ c6s2.writable = false
      ∧ c6s2.try_read = .ok 1 c6s3
      ∧ c6s3.try_read = .err { cause := .wouldBlock } c6s4 := by
  decide

/-- C7: every value that enters the queue is dropped exactly once: at the end
of any non-halted sequential run the Ring destructor destroys exactly the
sent-but-not-received values (one drop per still-occupied slot), a slot whose
occupied flag is false is not touched at destruction, and in the concrete
capacity-10 scenario (send 10, receive and leak 3, drop both handles) the
destruction count is 7. -/
theorem spec_c7_values_dropped_exactly_once :
    (∀ (V : Type) [Inhabited V] (N : Nat) (ops : List (Op V)),
        1 ≤ N → ops.length < USIZE → (run V N ops).halted = false →
        (run V N ops).chan.destructionCount
          = (run V N ops).sent.length - (run V N ops).rcvd.length)
    ∧ (∀ (V : Type) [Inhabited V] (n : Node V),
        n.hot = false → n.dropEffect = none)
    ∧ (senderDrop (receiverDrop (run Nat 10 c7ops).chan)).destructionCount = 7
    ∧ (senderDrop (receiverDrop (run Nat 10 c7ops).chan)).destroyedValues
        = [4, 5, 6, 7, 8, 9, 10]
    ∧ (run Nat 10 c7ops).rcvd = [1, 2, 3] := by
  refine ⟨?_, ?_, by decide, by decide, by decide⟩
  · intro V instV N ops hN hlen hhalt
    obtain ⟨hfifo, hrest⟩ := run_inv hN ops hlen
    rcases hrest with h | h
    · rw [hhalt] at h
      simp at h
    · exact h.cnt
  · intro V instV n hn
    simp [Node.dropEffect, hn]

/-- Witness for C7: the general drop-count statement applied to a concrete
capacity-1 program, and the cold-slot clause applied to a concrete node. -/
theorem spec_c7_values_dropped_exactly_once_witness :
    (run Nat 1 [.send 4]).chan.destructionCount
        = (run Nat 1 [.send 4]).sent.length - (run Nat 1 [.send 4]).rcvd.length
      ∧ (Node.mk 3 false : Node Nat).dropEffect = none :=
  ⟨spec_c7_values_dropped_exactly_once.1 Nat 1 [.send 4]
      (by decide) (by decide) (by decide),
   spec_c7_values_dropped_exactly_once.2.1 Nat (Node.mk 3 false) rfl⟩

/-- C8: both iterator views are fused: once the stored receiver has been
dropped (after any receive error) every subsequent `next` returns
end-of-stream and leaves the channel untouched, whatever the channel state;
and any step that returns end-of-stream leaves the iterator with its receiver
dropped. -/
theorem spec_c8_iterators_fused :
    (∀ (V : Type) [Inhabited V] (c : Channel V),
        iterNext false c = .step none false c)
    ∧ (∀ (V : Type) [Inhabited V] (c : Channel V),
        tryIterNext false c = .step none false c)
    ∧ (∀ (V : Type) [Inhabited V] (live : Bool) (c : Channel V)
        (out : Option V) (live1 : Bool) (c1 : Channel V),
        iterNext live c = .step out live1 c1 → out = none → live1 = false)
    ∧ (∀ (V : Type) [Inhabited V] (live : Bool) (c : Channel V)
        (out : Option V) (live1 : Bool) (c1 : Channel V),
        tryIterNext live c = .step out live1 c1 → out = none → live1 = false) := by
  refine ⟨?_, ?_, ?_, ?_⟩
  · intro V instV c
    simp [iterNext]
  · intro V instV c
    simp [tryIterNext]
  · intro V instV live c out live1 c1 hstep hout
    subst hout
    cases live1 with
    | false => rfl
    | true =>
      exfalso
      cases live with
      | false => simp [iterNext] at hstep
      | true =>
        cases hread : c.read <;> simp [iterNext, hread] at hstep
  · intro V instV live c out live1 c1 hstep hout
    subst hout
    cases live1 with
    | false => rfl
    | true =>
      exfalso
      cases live with
      | false => simp [tryIterNext] at hstep
      | true =>
        cases hread : c.try_read <;> simp [tryIterNext, hread] at hstep

/-- Witness for C8: the latching clause applied to a concrete errored step of
the draining iterator on the hung-up channel. -/
theorem spec_c8_iterators_fused_witness :
    (false = false)
      ∧ tryIterNext (V := Nat) true hungChan
          = .step none false hungChan :=
  ⟨spec_c8_iterators_fused.2.2.2 Nat true hungChan none false hungChan
      (by decide) rfl,
   by decide⟩

/-- C9: for every capacity N ≥ 1 and every cursor value (including wrapped
ones), the slot index computed by `get_node` and `try_node` — used by all four
queue operations — is the cursor value modulo N, which is strictly less than
N, so slot indexing stays in bounds under cursor wrap. -/
theorem spec_c9_slot_index_mod (c : Channel V) (cur : Nat)
    (hN : 1 ≤ c.data.length) :
    c.get_node cur = some (cur % c.data.length, (cur + 1) % USIZE)
      ∧ c.try_node cur = some (cur % c.data.length, cur)
      ∧ cur % c.data.length < c.data.length := by
  have hN0 : ¬ c.data.length = 0 := by omega
  refine ⟨?_, ?_, Nat.mod_lt _ (by omega)⟩ <;>
    simp [Channel.get_node, Channel.try_node, rustRem, hN0]

/-- Witness for C9: the index computation applied to a concrete channel and a
cursor value beyond the wrap point. -/
theorem spec_c9_slot_index_mod_witness :
    freshChan.get_node (USIZE + 3)
        = some ((USIZE + 3) % freshChan.data.length, (USIZE + 4) % USIZE)
      ∧ freshChan.try_node (USIZE + 3)
        = some ((USIZE + 3) % freshChan.data.length, USIZE + 3)
      ∧ (USIZE + 3) % freshChan.data.length < freshChan.data.length :=
  spec_c9_slot_index_mod freshChan (USIZE + 3) (by decide)

/-- C10: the constructor does not validate the capacity: `channel(0)` returns
a handle pair (both counters incremented, empty slot vector) without error,
and each of `send`, `try_send` and `try_recv` then computes the cursor modulo
zero and panics instead of returning an error value. -/
theorem spec_c10_zero_capacity_panics :
    (channel Nat 0).data.length = 0
      ∧ (channel Nat 0).senders = 1
      ∧ (channel Nat 0).receivers = 1
      ∧ (channel Nat 0).write 5 = .panicked
      ∧ (channel Nat 0).try_write 5 = .panicked
      ∧ (channel Nat 0).try_read = .panicked := by
  decide

end AtomicMpmc
